import Mathlib

/-!
Shallow embedding of the chirpy file-backed store
(`src/internal/database/database.go`, final snapshot of the package).

Go maps are modelled as association lists; a Go map never holds two
entries with the same key, and map iteration order is unspecified, which
the model renders as the (arbitrary) order of the association list.
Machine `int` is modelled as `Int` (the id counters start at 1 and grow
by 1 per create, so 64-bit overflow is unreachable in any run the claims
quantify over).  File I/O is abstracted: each mutating operation takes a
`writeOk : Bool` telling whether the `writeDB` call would succeed, and
returns the result together with the snapshot the file holds afterwards.
The bcrypt hash (an external, pluggable capability per the spec) is a
function parameter `hashPw`; `time.Now()` is a parameter `now`.
-/

namespace Chirpy

structure Chirp where
  body : String
  id : Int
  authorId : Int
deriving DecidableEq, Repr

structure User where
  email : String
  password : String
  id : Int
  isChirpyRed : Bool
deriving DecidableEq, Repr

structure DBStructure where
  nextChirpId : Int
  nextUserId : Int
  chirps : List (Int × Chirp)
  users : List (Int × User)
  revokedRefreshTokens : List (String × Int)
deriving DecidableEq, Repr

inductive DBError where
  | userAlreadyExists
  | userDoesNotExist
  | tokenAlreadyRevoked
  | chirpDoesNotExist
  | authorization
  | storageUnavailable
deriving DecidableEq, Repr

/-- Lookup in a Go map modelled as an association list (`m[k]`). -/
def mapLookup {α β : Type} [DecidableEq α] : List (α × β) → α → Option β
  | [], _ => none
  | (k, v) :: rest, k0 => if k = k0 then some v else mapLookup rest k0

/-- Assignment `m[k] = v` in a Go map: overwrite the entry if present,
append otherwise. -/
def mapInsert {α β : Type} [DecidableEq α] : List (α × β) → α → β → List (α × β)
  | [], k0, v0 => [(k0, v0)]
  | (k, v) :: rest, k0, v0 =>
    if k = k0 then (k0, v0) :: rest else (k, v) :: mapInsert rest k0 v0

/-- `delete(m, k)` on a Go map. -/
def mapErase {α β : Type} [DecidableEq α] : List (α × β) → α → List (α × β)
  | [], _ => []
  | (k, v) :: rest, k0 =>
    if k = k0 then mapErase rest k0 else (k, v) :: mapErase rest k0

/-- `normalizeEmail`: `strings.TrimSpace(strings.ToLower(email))`,
modelled on the character list: lower-case every character, then strip
whitespace from both ends. -/
def normalizeEmail (email : String) : String :=
  ⟨(((email.data.map Char.toLower).dropWhile Char.isWhitespace).reverse.dropWhile
      Char.isWhitespace).reverse⟩

/-- The snapshot `ensureDB` writes on a fresh path: both counters 1, all
maps empty. -/
def initialDBStructure : DBStructure :=
  { nextChirpId := 1, nextUserId := 1, chirps := [], users := [],
    revokedRefreshTokens := [] }

/-- `ensureDB`: no-op when the file exists; otherwise create it and write
`initialDBStructure`.  `ioOk` abstracts success of the create + write. -/
def ensureDB (ioOk : Bool) : Option DBStructure →
    Except DBError Unit × Option DBStructure
  | some s => (Except.ok (), some s)
  | none =>
    if ioOk then (Except.ok (), some initialDBStructure)
    else (Except.error DBError.storageUnavailable, none)

/-- `CreateChirp`: allocates `NextChirpId`, inserts the chirp, bumps the
counter.  The Go code discards the error returned by `db.writeDB`, so the
call reports success even when the write failed. -/
def CreateChirp (writeOk : Bool) (s : DBStructure) (createdBy : Int)
    (body : String) : Except DBError Chirp × DBStructure :=
  let chirp : Chirp := { id := s.nextChirpId, authorId := createdBy, body := body }
  let s1 : DBStructure :=
    { s with chirps := mapInsert s.chirps s.nextChirpId chirp,
             nextChirpId := s.nextChirpId + 1 }
  (Except.ok chirp, if writeOk then s1 else s)

/-- `DeleteChirp`: not-found and authorization checks, then delete and
persist (here the Go code does check the `writeDB` error). -/
def DeleteChirp (writeOk : Bool) (s : DBStructure)
    (chirpIdToDelete idOfRequestingUser : Int) :
    Except DBError Unit × DBStructure :=
  match mapLookup s.chirps chirpIdToDelete with
  | none => (Except.error DBError.chirpDoesNotExist, s)
  | some chirp =>
    if chirp.authorId ≠ idOfRequestingUser then
      (Except.error DBError.authorization, s)
    else
      let s1 : DBStructure :=
        { s with chirps := mapErase s.chirps chirpIdToDelete }
      if writeOk then (Except.ok (), s1)
      else (Except.error DBError.storageUnavailable, s)

/-- `CreateUser`.  Faithful to the source: the duplicate check reads
`dbStruct.Users[dbStruct.NextUserId]` — it probes the user-id key about
to be allocated, not the normalized email — and the `db.writeDB` error is
discarded. -/
def CreateUser (hashPw : String → String) (writeOk : Bool) (s : DBStructure)
    (email password : String) : Except DBError User × DBStructure :=
  let normalizedEmail := normalizeEmail email
  match mapLookup s.users s.nextUserId with
  | some _ => (Except.error DBError.userAlreadyExists, s)
  | none =>
    let user : User :=
      { id := s.nextUserId, email := normalizedEmail,
        password := hashPw password, isChirpyRed := false }
    let s1 : DBStructure :=
      { s with users := mapInsert s.users s.nextUserId user,
               nextUserId := s.nextUserId + 1 }
    (Except.ok user, if writeOk then s1 else s)

/-- The loop body of `getUserByEmail`: first user (in iteration order)
whose stored email equals the given string, compared verbatim. -/
def findUserByEmail : List (Int × User) → String → Option User
  | [], _ => none
  | (_, user) :: rest, email =>
    if email = user.email then some user else findUserByEmail rest email

/-- `GetUser`: normalizes the input, then scans stored emails for an
exact match. -/
def GetUser (s : DBStructure) (email : String) : Except DBError User :=
  match findUserByEmail s.users (normalizeEmail email) with
  | some user => Except.ok user
  | none => Except.error DBError.userDoesNotExist

/-- `GetChirp`: pure lookup (the Go `(Chirp, bool, error)` result, load
errors aside, is an option). -/
def GetChirp (s : DBStructure) (id : Int) : Option Chirp :=
  mapLookup s.chirps id

/-- `GetChirps`: the map's values in iteration order. -/
def GetChirps (s : DBStructure) : List Chirp :=
  s.chirps.map Prod.snd

/-- `GetChirpsFromId`: values with matching `AuthorId`, in iteration
order. -/
def GetChirpsFromId (s : DBStructure) (authorId : Int) : List Chirp :=
  (s.chirps.map Prod.snd).filter (fun c => c.authorId = authorId)

/-- `UpdateUser`: replaces email (stored verbatim, not normalized) and
password hash, keeps `Id` and `IsChirpyRed`, persists (write error
checked). -/
def UpdateUser (hashPw : String → String) (writeOk : Bool) (s : DBStructure)
    (id : Int) (email password : String) :
    Except DBError Unit × DBStructure :=
  match mapLookup s.users id with
  | none => (Except.error DBError.userDoesNotExist, s)
  | some user =>
    let updatedUser : User :=
      { email := email, password := hashPw password, id := id,
        isChirpyRed := user.isChirpyRed }
    let s1 : DBStructure := { s with users := mapInsert s.users id updatedUser }
    if writeOk then (Except.ok (), s1)
    else (Except.error DBError.storageUnavailable, s)

/-- `IsTokenRevoked`: membership in `RevokedRefreshTokens`. -/
def IsTokenRevoked (s : DBStructure) (token : String) : Bool :=
  (mapLookup s.revokedRefreshTokens token).isSome

/-- `RevokeRefreshToken`: rejects an already revoked token, otherwise
records it with the current time and persists (write error checked). -/
def RevokeRefreshToken (writeOk : Bool) (now : Int) (s : DBStructure)
    (token : String) : Except DBError Unit × DBStructure :=
  if IsTokenRevoked s token then
    (Except.error DBError.tokenAlreadyRevoked, s)
  else
    let s1 : DBStructure :=
      { s with revokedRefreshTokens := mapInsert s.revokedRefreshTokens token now }
    if writeOk then (Except.ok (), s1)
    else (Except.error DBError.storageUnavailable, s)

/-- `UpgradeUser`: sets `IsChirpyRed` on an existing user, persists
(write error checked). -/
def UpgradeUser (writeOk : Bool) (s : DBStructure) (id : Int) :
    Except DBError Unit × DBStructure :=
  match mapLookup s.users id with
  | none => (Except.error DBError.userDoesNotExist, s)
  | some user =>
    let s1 : DBStructure :=
      { s with users := mapInsert s.users id { user with isChirpyRed := true } }
    if writeOk then (Except.ok (), s1)
    else (Except.error DBError.storageUnavailable, s)

/-! ### Association-list lemmas -/

theorem mapLookup_mapInsert_self {α β : Type} [DecidableEq α]
    (m : List (α × β)) (k : α) (v : β) :
    mapLookup (mapInsert m k v) k = some v := by
  induction m with
  | nil => simp [mapInsert, mapLookup]
  | cons p rest ih =>
    obtain ⟨k1, v1⟩ := p
    by_cases h : k1 = k
    · subst h
      simp [mapInsert, mapLookup]
    · simp [mapInsert, mapLookup, h, ih]

theorem mapLookup_mapInsert_ne {α β : Type} [DecidableEq α]
    (m : List (α × β)) (k k' : α) (v : β) (h : k' ≠ k) :
    mapLookup (mapInsert m k v) k' = mapLookup m k' := by
  induction m with
  | nil => simp [mapInsert, mapLookup, Ne.symm h]
  | cons p rest ih =>
    obtain ⟨k1, v1⟩ := p
    by_cases h1 : k1 = k
    · subst h1
      simp [mapInsert, mapLookup, Ne.symm h]
    · simp [mapInsert, mapLookup, h1, ih]

theorem mapLookup_mapErase_self {α β : Type} [DecidableEq α]
    (m : List (α × β)) (k : α) :
    mapLookup (mapErase m k) k = none := by
  induction m with
  | nil => simp [mapErase, mapLookup]
  | cons p rest ih =>
    obtain ⟨k1, v1⟩ := p
    by_cases h : k1 = k
    · simp [mapErase, mapLookup, h, ih]
    · simp [mapErase, mapLookup, h, ih]

theorem mapLookup_mapErase_ne {α β : Type} [DecidableEq α]
    (m : List (α × β)) (k k' : α) (h : k' ≠ k) :
    mapLookup (mapErase m k) k' = mapLookup m k' := by
  induction m with
  | nil => simp [mapErase, mapLookup]
  | cons p rest ih =>
    obtain ⟨k1, v1⟩ := p
    by_cases h1 : k1 = k
    · subst h1
      simp [mapErase, mapLookup, Ne.symm h, ih]
    · simp [mapErase, mapLookup, h1, ih]

theorem mapLookup_mapInsert_isSome {α β : Type} [DecidableEq α]
    (m : List (α × β)) (k k' : α) (v : β)
    (h : (mapLookup m k').isSome) :
    (mapLookup (mapInsert m k v) k').isSome := by
  by_cases hk : k' = k
  · subst hk
    simp [mapLookup_mapInsert_self]
  · rw [mapLookup_mapInsert_ne m k k' v hk]
    exact h

/-! ### C1: the duplicate-email check of `CreateUser` -/

/-- The hash capability instantiated for concrete runs. -/
def idHash : String → String := fun p => p

/-- The first user stored by the C1 run. -/
def c1User1 : User :=
  { id := 1, email := "a@b.com", password := "pw1", isChirpyRed := false }

/-- The store after `createUser("a@b.com", "pw1")` on a fresh store. -/
def c1State1 : DBStructure :=
  (CreateUser idHash true initialDBStructure "a@b.com" "pw1").2

/-- C1: the source's duplicate check probes `Users[NextUserId]` instead of
the normalized email, so a second `createUser` with the very same
normalized email succeeds and stores a second user with that email,
where the claim and the spec demand an `AlreadyExists` failure. -/
theorem CreateUser_duplicate_email_accepted :
    (CreateUser idHash true initialDBStructure "a@b.com" "pw1").1 = Except.ok c1User1
    ∧ mapLookup c1State1.users 1 = some c1User1
    ∧ c1User1.email = normalizeEmail "a@b.com"
    ∧ (CreateUser idHash true c1State1 "a@b.com" "pw2").1
        = Except.ok { id := 2, email := "a@b.com", password := "pw2", isChirpyRed := false }
    ∧ (CreateUser idHash true c1State1 "a@b.com" "pw2").2.users
        = [(1, c1User1),
           (2, { id := 2, email := "a@b.com", password := "pw2", isChirpyRed := false })] := by
  exact ⟨rfl, rfl, rfl, rfl, rfl⟩

/-! ### C2: `CreateChirp` discards the `writeDB` error -/

/-- C2: with the store step failing (`writeOk = false`, the snapshot on
disk stays what it was), `CreateChirp` still returns the new chirp with a
nil error, where the claim demands that the failure be surfaced. -/
theorem CreateChirp_success_despite_write_failure :
    (CreateChirp false initialDBStructure 7 "hello").1
        = Except.ok { body := "hello", id := 1, authorId := 7 }
    ∧ (CreateChirp false initialDBStructure 7 "hello").2 = initialDBStructure := by
  exact ⟨rfl, rfl⟩

/-! ### C4: `DeleteChirp` -/

/-- C4: `DeleteChirp` on an absent id fails with not-found and leaves the
store unchanged; on a chirp authored by a different user it fails with
the authorization error, leaves the store unchanged and the chirp is
still returned by `GetChirp`; otherwise it removes exactly that chirp
and persists, touching nothing else. -/
theorem DeleteChirp_spec (s : DBStructure) (id requester : Int) :
    (mapLookup s.chirps id = none →
      DeleteChirp true s id requester = (Except.error DBError.chirpDoesNotExist, s))
    ∧ (∀ chirp, mapLookup s.chirps id = some chirp → chirp.authorId ≠ requester →
        DeleteChirp true s id requester = (Except.error DBError.authorization, s)
        ∧ GetChirp (DeleteChirp true s id requester).2 id = some chirp)
    ∧ (∀ chirp, mapLookup s.chirps id = some chirp → chirp.authorId = requester →
        (DeleteChirp true s id requester).1 = Except.ok ()
        ∧ GetChirp (DeleteChirp true s id requester).2 id = none
        ∧ (∀ id2, id2 ≠ id →
            mapLookup (DeleteChirp true s id requester).2.chirps id2
              = mapLookup s.chirps id2)
        ∧ (DeleteChirp true s id requester).2.users = s.users
        ∧ (DeleteChirp true s id requester).2.revokedRefreshTokens
            = s.revokedRefreshTokens
        ∧ (DeleteChirp true s id requester).2.nextChirpId = s.nextChirpId
        ∧ (DeleteChirp true s id requester).2.nextUserId = s.nextUserId) := by
  refine ⟨?_, ?_, ?_⟩
  · intro h
    simp [DeleteChirp, h]
  · intro chirp h hne
    simp [DeleteChirp, GetChirp, h, hne]
  · intro chirp h heq
    refine ⟨?_, ?_, ?_, ?_, ?_, ?_, ?_⟩
    · simp [DeleteChirp, h, heq]
    · simp [DeleteChirp, GetChirp, h, heq, mapLookup_mapErase_self]
    · intro id2 hne2
      simp [DeleteChirp, h, heq, mapLookup_mapErase_ne s.chirps id id2 hne2]
    · simp [DeleteChirp, h, heq]
    · simp [DeleteChirp, h, heq]
    · simp [DeleteChirp, h, heq]
    · simp [DeleteChirp, h, heq]

/-- A one-chirp store used by concrete runs. -/
def c4Chirp : Chirp := { body := "hi", id := 1, authorId := 7 }

/-- Store holding exactly `c4Chirp`. -/
def c4State : DBStructure :=
  { nextChirpId := 2, nextUserId := 1, chirps := [(1, c4Chirp)], users := [],
    revokedRefreshTokens := [] }

/-- Witness for C4: a requester other than the author gets the
authorization error and the chirp stays retrievable. -/
theorem DeleteChirp_spec_witness :
    DeleteChirp true c4State 1 9 = (Except.error DBError.authorization, c4State)
    ∧ GetChirp (DeleteChirp true c4State 1 9).2 1 = some c4Chirp :=
  (DeleteChirp_spec c4State 1 9).2.1 c4Chirp rfl (by decide)

/-! ### C7: `UpgradeUser` -/

/-- C7: `UpgradeUser` on an absent id fails with not-found and changes
nothing; on an existing id it succeeds and sets the upgrade flag, and a
second call on the same id succeeds again with the flag still set. -/
theorem UpgradeUser_spec (s : DBStructure) (id : Int) :
    (mapLookup s.users id = none →
      UpgradeUser true s id = (Except.error DBError.userDoesNotExist, s))
    ∧ (∀ u, mapLookup s.users id = some u →
        (UpgradeUser true s id).1 = Except.ok ()
        ∧ mapLookup (UpgradeUser true s id).2.users id = some { u with isChirpyRed := true }
        ∧ (UpgradeUser true (UpgradeUser true s id).2 id).1 = Except.ok ()
        ∧ mapLookup (UpgradeUser true (UpgradeUser true s id).2 id).2.users id
            = some { u with isChirpyRed := true }) := by
  constructor
  · intro h
    simp [UpgradeUser, h]
  · intro u h
    have h1 : mapLookup (mapInsert s.users id { u with isChirpyRed := true }) id
        = some { u with isChirpyRed := true } :=
      mapLookup_mapInsert_self s.users id { u with isChirpyRed := true }
    refine ⟨?_, ?_, ?_, ?_⟩
    · simp [UpgradeUser, h]
    · simp [UpgradeUser, h, h1]
    · simp [UpgradeUser, h, h1]
    · simp [UpgradeUser, h, h1, mapLookup_mapInsert_self]

/-- A one-user store used by concrete runs. -/
def c7User : User :=
  { email := "u@x.com", password := "pw", id := 1, isChirpyRed := false }

/-- Store holding exactly `c7User`. -/
def c7State : DBStructure :=
  { nextChirpId := 1, nextUserId := 2, chirps := [], users := [(1, c7User)],
    revokedRefreshTokens := [] }

/-- Witness for C7: upgrading user 1 twice succeeds both times and leaves
the flag set; upgrading the absent id 5 fails. -/
theorem UpgradeUser_spec_witness :
    ((UpgradeUser true c7State 1).1 = Except.ok ()
      ∧ mapLookup (UpgradeUser true c7State 1).2.users 1
          = some { c7User with isChirpyRed := true }
      ∧ (UpgradeUser true (UpgradeUser true c7State 1).2 1).1 = Except.ok ()
      ∧ mapLookup (UpgradeUser true (UpgradeUser true c7State 1).2 1).2.users 1
          = some { c7User with isChirpyRed := true })
    ∧ UpgradeUser true c7State 5 = (Except.error DBError.userDoesNotExist, c7State) :=
  ⟨(UpgradeUser_spec c7State 1).2 c7User rfl, (UpgradeUser_spec c7State 5).1 rfl⟩

/-! ### C8: `UpdateUser` -/

/-- C8: `UpdateUser` on an absent id fails with not-found and changes
nothing; on an existing id it replaces exactly the email and password
hash of that user, keeping its id and upgrade flag, and leaves every
other user, all chirps, the revocation table and both counters as they
were. -/
theorem UpdateUser_spec (hashPw : String → String) (s : DBStructure) (id : Int)
    (newEmail newPassword : String) :
    (mapLookup s.users id = none →
      UpdateUser hashPw true s id newEmail newPassword
        = (Except.error DBError.userDoesNotExist, s))
    ∧ (∀ u, mapLookup s.users id = some u →
        (UpdateUser hashPw true s id newEmail newPassword).1 = Except.ok ()
        ∧ mapLookup (UpdateUser hashPw true s id newEmail newPassword).2.users id
            = some { email := newEmail, password := hashPw newPassword, id := id,
                     isChirpyRed := u.isChirpyRed }
        ∧ (∀ id2, id2 ≠ id →
            mapLookup (UpdateUser hashPw true s id newEmail newPassword).2.users id2
              = mapLookup s.users id2)
        ∧ (UpdateUser hashPw true s id newEmail newPassword).2.chirps = s.chirps
        ∧ (UpdateUser hashPw true s id newEmail newPassword).2.revokedRefreshTokens
            = s.revokedRefreshTokens
        ∧ (UpdateUser hashPw true s id newEmail newPassword).2.nextChirpId
            = s.nextChirpId
        ∧ (UpdateUser hashPw true s id newEmail newPassword).2.nextUserId
            = s.nextUserId) := by
  constructor
  · intro h
    simp [UpdateUser, h]
  · intro u h
    refine ⟨?_, ?_, ?_, ?_, ?_, ?_, ?_⟩
    · simp [UpdateUser, h]
    · simp [UpdateUser, h, mapLookup_mapInsert_self]
    · intro id2 hne2
      simp [UpdateUser, h, mapLookup_mapInsert_ne s.users id id2 _ hne2]
    · simp [UpdateUser, h]
    · simp [UpdateUser, h]
    · simp [UpdateUser, h]
    · simp [UpdateUser, h]

/-- Witness for C8: updating user 1 of the one-user store replaces its
email and password hash, keeps id and flag, and leaves the rest of the
store untouched; updating the absent id 5 fails. -/
theorem UpdateUser_spec_witness :
    ((UpdateUser idHash true c7State 1 "new@x.com" "pw2").1 = Except.ok ()
      ∧ mapLookup (UpdateUser idHash true c7State 1 "new@x.com" "pw2").2.users 1
          = some { email := "new@x.com", password := idHash "pw2", id := 1,
                   isChirpyRed := c7User.isChirpyRed }
      ∧ (UpdateUser idHash true c7State 1 "new@x.com" "pw2").2.nextUserId
          = c7State.nextUserId)
    ∧ UpdateUser idHash true c7State 5 "new@x.com" "pw2"
        = (Except.error DBError.userDoesNotExist, c7State) := by
  have h := UpdateUser_spec idHash c7State 1 "new@x.com" "pw2"
  have h2 := (h.2 c7User rfl)
  exact ⟨⟨h2.1, h2.2.1, h2.2.2.2.2.2.2⟩,
    (UpdateUser_spec idHash c7State 5 "new@x.com" "pw2").1 rfl⟩

/-! ### Operation sequences -/

/-- One mutating store operation, with its `writeDB` outcome. -/
inductive Op where
  | createChirp (writeOk : Bool) (createdBy : Int) (body : String)
  | deleteChirp (writeOk : Bool) (chirpId userId : Int)
  | createUser (writeOk : Bool) (email password : String)
  | updateUser (writeOk : Bool) (id : Int) (email password : String)
  | upgradeUser (writeOk : Bool) (id : Int)
  | revokeRefreshToken (writeOk : Bool) (now : Int) (token : String)

/-- The snapshot after one operation. -/
def applyOp (hashPw : String → String) (s : DBStructure) : Op → DBStructure
  | Op.createChirp w a b => (CreateChirp w s a b).2
  | Op.deleteChirp w c u => (DeleteChirp w s c u).2
  | Op.createUser w e p => (CreateUser hashPw w s e p).2
  | Op.updateUser w i e p => (UpdateUser hashPw w s i e p).2
  | Op.upgradeUser w i => (UpgradeUser w s i).2
  | Op.revokeRefreshToken w n t => (RevokeRefreshToken w n s t).2

/-- The snapshot after a sequence of operations. -/
def runOps (hashPw : String → String) (s : DBStructure) (ops : List Op) : DBStructure :=
  ops.foldl (applyOp hashPw) s

/-- No operation shrinks the revocation table: it is either untouched or
extended by one insertion. -/
theorem revoked_applyOp (hashPw : String → String) (s : DBStructure) (op : Op) :
    (applyOp hashPw s op).revokedRefreshTokens = s.revokedRefreshTokens
    ∨ ∃ tok now, (applyOp hashPw s op).revokedRefreshTokens
        = mapInsert s.revokedRefreshTokens tok now := by
  cases op with
  | createChirp w a b =>
    left
    cases w <;> simp [applyOp, CreateChirp]
  | deleteChirp w c u =>
    left
    cases h : mapLookup s.chirps c with
    | none => simp [applyOp, DeleteChirp, h]
    | some chirp =>
      by_cases h2 : chirp.authorId ≠ u
      · simp [applyOp, DeleteChirp, h, h2]
      · cases w <;> simp [applyOp, DeleteChirp, h, h2]
  | createUser w e p =>
    left
    cases h : mapLookup s.users s.nextUserId with
    | none => cases w <;> simp [applyOp, CreateUser, h]
    | some u => simp [applyOp, CreateUser, h]
  | updateUser w i e p =>
    left
    cases h : mapLookup s.users i with
    | none => simp [applyOp, UpdateUser, h]
    | some u => cases w <;> simp [applyOp, UpdateUser, h]
  | upgradeUser w i =>
    left
    cases h : mapLookup s.users i with
    | none => simp [applyOp, UpgradeUser, h]
    | some u => cases w <;> simp [applyOp, UpgradeUser, h]
  | revokeRefreshToken w n t =>
    by_cases h : IsTokenRevoked s t
    · left
      simp [applyOp, RevokeRefreshToken, h]
    · cases w
      · left
        simp [applyOp, RevokeRefreshToken, h]
      · right
        exact ⟨t, n, by simp [applyOp, RevokeRefreshToken, h]⟩

/-- A revoked token stays revoked across one operation. -/
theorem isTokenRevoked_applyOp (hashPw : String → String) (s : DBStructure)
    (op : Op) (t : String) (h : IsTokenRevoked s t = true) :
    IsTokenRevoked (applyOp hashPw s op) t = true := by
  rcases revoked_applyOp hashPw s op with h1 | ⟨tok, now, h1⟩
  · simpa [IsTokenRevoked, h1] using h
  · have := mapLookup_mapInsert_isSome s.revokedRefreshTokens tok t now
      (by simpa [IsTokenRevoked] using h)
    simpa [IsTokenRevoked, h1] using this

/-- A revoked token stays revoked across any sequence of operations. -/
theorem isTokenRevoked_runOps (hashPw : String → String) (ops : List Op) :
    ∀ (s : DBStructure) (t : String), IsTokenRevoked s t = true →
      IsTokenRevoked (runOps hashPw s ops) t = true := by
  induction ops with
  | nil => intro s t h; simpa [runOps] using h
  | cons op rest ih =>
    intro s t h
    have h1 := isTokenRevoked_applyOp hashPw s op t h
    simpa [runOps, List.foldl_cons] using ih (applyOp hashPw s op) t h1

/-! ### C5: token revocation -/

/-- C5: revoking a not-yet-revoked token succeeds and records it; a
second revocation of the same token is rejected as already revoked; after
either outcome the token tests as revoked, and once revoked it remains so
after every subsequent operation. -/
theorem revokeToken_spec :
    (∀ (s : DBStructure) (t : String) (n1 n2 : Int),
      IsTokenRevoked s t = false →
        (RevokeRefreshToken true n1 s t).1 = Except.ok ()
        ∧ mapLookup (RevokeRefreshToken true n1 s t).2.revokedRefreshTokens t = some n1
        ∧ IsTokenRevoked (RevokeRefreshToken true n1 s t).2 t = true
        ∧ (RevokeRefreshToken true n2 (RevokeRefreshToken true n1 s t).2 t).1
            = Except.error DBError.tokenAlreadyRevoked
        ∧ IsTokenRevoked
            (RevokeRefreshToken true n2 (RevokeRefreshToken true n1 s t).2 t).2 t = true)
    ∧ (∀ (hashPw : String → String) (s : DBStructure) (t : String) (ops : List Op),
        IsTokenRevoked s t = true →
          IsTokenRevoked (runOps hashPw s ops) t = true) := by
  constructor
  · intro s t n1 n2 h
    have hlk : mapLookup (mapInsert s.revokedRefreshTokens t n1) t = some n1 :=
      mapLookup_mapInsert_self s.revokedRefreshTokens t n1
    have hstep : RevokeRefreshToken true n1 s t
        = (Except.ok (),
           { s with revokedRefreshTokens := mapInsert s.revokedRefreshTokens t n1 }) := by
      simp [RevokeRefreshToken, h]
    have hrev1 : IsTokenRevoked
        { s with revokedRefreshTokens := mapInsert s.revokedRefreshTokens t n1 } t
          = true := by
      simp [IsTokenRevoked, hlk]
    have hstep2 : RevokeRefreshToken true n2
        { s with revokedRefreshTokens := mapInsert s.revokedRefreshTokens t n1 } t
        = (Except.error DBError.tokenAlreadyRevoked,
           { s with revokedRefreshTokens := mapInsert s.revokedRefreshTokens t n1 }) := by
      simp [RevokeRefreshToken, hrev1]
    rw [hstep]
    dsimp only
    exact ⟨rfl, hlk, hrev1, by rw [hstep2], by rw [hstep2]; exact hrev1⟩
  · intro hashPw s t ops h
    exact isTokenRevoked_runOps hashPw ops s t h

/-- Witness for C5: on the empty store, revoking token `"tok"` succeeds,
revoking it again fails as already revoked, it tests as revoked, and it
is still revoked after a further unrelated operation. -/
theorem revokeToken_spec_witness :
    ((RevokeRefreshToken true 5 initialDBStructure "tok").1 = Except.ok ()
      ∧ mapLookup (RevokeRefreshToken true 5 initialDBStructure "tok").2.revokedRefreshTokens
          "tok" = some 5
      ∧ IsTokenRevoked (RevokeRefreshToken true 5 initialDBStructure "tok").2 "tok" = true
      ∧ (RevokeRefreshToken true 6
          (RevokeRefreshToken true 5 initialDBStructure "tok").2 "tok").1
            = Except.error DBError.tokenAlreadyRevoked
      ∧ IsTokenRevoked
          (RevokeRefreshToken true 6
            (RevokeRefreshToken true 5 initialDBStructure "tok").2 "tok").2 "tok" = true)
    ∧ IsTokenRevoked
        (runOps idHash (RevokeRefreshToken true 5 initialDBStructure "tok").2
          [Op.createChirp true 7 "hello"]) "tok" = true :=
  ⟨revokeToken_spec.1 initialDBStructure "tok" 5 6 rfl,
   revokeToken_spec.2 idHash (RevokeRefreshToken true 5 initialDBStructure "tok").2 "tok"
     [Op.createChirp true 7 "hello"] rfl⟩

/-! ### C6: strictly increasing chirp ids, monotone counters -/

/-- A chirp-level call in a create/delete sequence (writes succeeding,
as the claim's "successful" calls presuppose). -/
inductive ChirpOp where
  | create (createdBy : Int) (body : String)
  | del (chirpId userId : Int)

/-- Runs a create/delete sequence and collects the ids the successful
`CreateChirp` calls return, in call order. -/
def runChirpOps (s : DBStructure) : List ChirpOp → DBStructure × List Int
  | [] => (s, [])
  | ChirpOp.create a b :: rest =>
    let r := CreateChirp true s a b
    let more := runChirpOps r.2 rest
    match r.1 with
    | Except.ok c => (more.1, c.id :: more.2)
    | Except.error _ => (more.1, more.2)
  | ChirpOp.del c u :: rest => runChirpOps (DeleteChirp true s c u).2 rest

/-- `DeleteChirp` never touches either counter. -/
theorem DeleteChirp_counters (w : Bool) (s : DBStructure) (c u : Int) :
    (DeleteChirp w s c u).2.nextChirpId = s.nextChirpId
    ∧ (DeleteChirp w s c u).2.nextUserId = s.nextUserId := by
  cases h : mapLookup s.chirps c with
  | none => simp [DeleteChirp, h]
  | some chirp =>
    by_cases h2 : chirp.authorId ≠ u
    · simp [DeleteChirp, h, h2]
    · cases w <;> simp [DeleteChirp, h, h2]

/-- Every id a create/delete run returns is at least the starting
`nextChirpId`, and the returned ids are strictly increasing. -/
theorem runChirpOps_bounds (ops : List ChirpOp) : ∀ s : DBStructure,
    (∀ i ∈ (runChirpOps s ops).2, s.nextChirpId ≤ i)
    ∧ List.Chain' (fun a b : Int => a < b) (runChirpOps s ops).2 := by
  induction ops with
  | nil =>
    intro s
    simp [runChirpOps]
  | cons op rest ih =>
    intro s
    cases op with
    | create a b =>
      have hrun : runChirpOps s (ChirpOp.create a b :: rest)
          = ((runChirpOps { s with
                chirps := mapInsert s.chirps s.nextChirpId
                  { id := s.nextChirpId, authorId := a, body := b },
                nextChirpId := s.nextChirpId + 1 } rest).1,
             s.nextChirpId :: (runChirpOps { s with
                chirps := mapInsert s.chirps s.nextChirpId
                  { id := s.nextChirpId, authorId := a, body := b },
                nextChirpId := s.nextChirpId + 1 } rest).2) := by
        simp [runChirpOps, CreateChirp]
      have hih := ih { s with
        chirps := mapInsert s.chirps s.nextChirpId
          { id := s.nextChirpId, authorId := a, body := b },
        nextChirpId := s.nextChirpId + 1 }
      rw [hrun]
      constructor
      · intro i hi
        rcases List.mem_cons.mp hi with h1 | h1
        · exact le_of_eq h1.symm
        · have := hih.1 i h1
          simp only at this
          omega
      · rw [List.chain'_cons']
        refine ⟨?_, hih.2⟩
        intro y hy
        have hmem : y ∈ (runChirpOps { s with
            chirps := mapInsert s.chirps s.nextChirpId
              { id := s.nextChirpId, authorId := a, body := b },
            nextChirpId := s.nextChirpId + 1 } rest).2 :=
          List.mem_of_mem_head? hy
        have := hih.1 y hmem
        simp only at this
        omega
    | del c u =>
      have hrun : runChirpOps s (ChirpOp.del c u :: rest)
          = runChirpOps (DeleteChirp true s c u).2 rest := rfl
      have hih := ih (DeleteChirp true s c u).2
      have hc := (DeleteChirp_counters true s c u).1
      rw [hrun]
      refine ⟨?_, hih.2⟩
      intro i hi
      have := hih.1 i hi
      omega

/-- All counter changes of one operation: neither `nextChirpId` nor
`nextUserId` ever decreases. -/
theorem applyOp_counters (hashPw : String → String) (s : DBStructure) (op : Op) :
    s.nextChirpId ≤ (applyOp hashPw s op).nextChirpId
    ∧ s.nextUserId ≤ (applyOp hashPw s op).nextUserId := by
  cases op with
  | createChirp w a b =>
    cases w <;> simp [applyOp, CreateChirp]
  | deleteChirp w c u =>
    have := DeleteChirp_counters w s c u
    constructor <;> simp [applyOp, this.1, this.2]
  | createUser w e p =>
    cases h : mapLookup s.users s.nextUserId with
    | none => cases w <;> simp [applyOp, CreateUser, h]
    | some u => simp [applyOp, CreateUser, h]
  | updateUser w i e p =>
    cases h : mapLookup s.users i with
    | none => simp [applyOp, UpdateUser, h]
    | some u => cases w <;> simp [applyOp, UpdateUser, h]
  | upgradeUser w i =>
    cases h : mapLookup s.users i with
    | none => simp [applyOp, UpgradeUser, h]
    | some u => cases w <;> simp [applyOp, UpgradeUser, h]
  | revokeRefreshToken w n t =>
    by_cases h : IsTokenRevoked s t
    · simp [applyOp, RevokeRefreshToken, h]
    · cases w <;> simp [applyOp, RevokeRefreshToken, h]

/-- C6: over any create/delete sequence the ids returned by `CreateChirp`
are strictly increasing and never repeat, and no operation ever decreases
either id counter. -/
theorem createChirp_ids_strictly_increasing :
    (∀ (s : DBStructure) (ops : List ChirpOp),
      List.Chain' (fun a b : Int => a < b) (runChirpOps s ops).2
      ∧ (runChirpOps s ops).2.Nodup)
    ∧ (∀ (hashPw : String → String) (s : DBStructure) (op : Op),
        s.nextChirpId ≤ (applyOp hashPw s op).nextChirpId
        ∧ s.nextUserId ≤ (applyOp hashPw s op).nextUserId) := by
  constructor
  · intro s ops
    have hchain := (runChirpOps_bounds ops s).2
    refine ⟨hchain, ?_⟩
    have hpw : List.Pairwise (fun a b : Int => a < b) (runChirpOps s ops).2 :=
      List.chain'_iff_pairwise.mp hchain
    exact hpw.imp (fun hab => ne_of_lt hab)
  · intro hashPw s op
    exact applyOp_counters hashPw s op

/-! ### C9: `ensureDB` -/

/-- C9: on a path with no file, `ensureDB` writes the initial snapshot
(both counters 1, all maps empty), so the first `CreateChirp` on the
fresh store returns a chirp with id 1; on an existing file it is a no-op
that resets nothing. -/
theorem ensureDB_spec :
    ensureDB true none = (Except.ok (), some initialDBStructure)
    ∧ initialDBStructure.nextChirpId = 1
    ∧ initialDBStructure.nextUserId = 1
    ∧ initialDBStructure.chirps = []
    ∧ initialDBStructure.users = []
    ∧ initialDBStructure.revokedRefreshTokens = []
    ∧ (∀ (a : Int) (b : String),
        (CreateChirp true initialDBStructure a b).1
          = Except.ok { body := b, id := 1, authorId := a })
    ∧ (∀ s : DBStructure, ensureDB true (some s) = (Except.ok (), some s)) :=
  ⟨rfl, rfl, rfl, rfl, rfl, rfl, fun _ _ => rfl, fun _ => rfl⟩

/-! ### C3: ordered listing (spec-modelled) -/

/-- Ordering of chirps by numeric id. -/
def chirpIdLE (a b : Chirp) : Prop := a.id ≤ b.id

instance : DecidableRel chirpIdLE :=
  fun a b => inferInstanceAs (Decidable (a.id ≤ b.id))

instance : IsTotal Chirp chirpIdLE :=
  ⟨fun a b => Int.le_total a.id b.id⟩

instance : IsTrans Chirp chirpIdLE :=
  ⟨fun _ _ _ h1 h2 => le_trans h1 h2⟩

/-- Modelled from the spec: the sort-aware listing `GetChirps(sort)`
called by the HTTP handler is absent from the provided source files
(only its caller is present); per the spec, listing orders chirps "by
numeric id, ascending unless descending requested", with an absent sort
parameter (the empty query value) defaulting to ascending. -/
def GetChirpsSorted (s : DBStructure) (sort : String) : List Chirp :=
  if sort = "desc" then (List.insertionSort chirpIdLE (GetChirps s)).reverse
  else List.insertionSort chirpIdLE (GetChirps s)

/-- Modelled from the spec: the sort-aware, author-filtered listing
`GetChirpsFromId(authorId, sort)` called by the HTTP handler is absent
from the provided source files; same ordering contract as
`GetChirpsSorted`. -/
def GetChirpsFromIdSorted (s : DBStructure) (authorId : Int) (sort : String) :
    List Chirp :=
  if sort = "desc" then
    (List.insertionSort chirpIdLE (GetChirpsFromId s authorId)).reverse
  else List.insertionSort chirpIdLE (GetChirpsFromId s authorId)

/-- C3: with no sort order requested, both listing variants return the
chirps of the store (respectively, the chirps of the given author)
ordered by numeric id, ascending. -/
theorem listChirps_sorted_ascending (s : DBStructure) (authorId : Int)
    (sort : String) (h : sort = "") :
    (List.Sorted chirpIdLE (GetChirpsSorted s sort)
      ∧ List.Perm (GetChirpsSorted s sort) (GetChirps s))
    ∧ (List.Sorted chirpIdLE (GetChirpsFromIdSorted s authorId sort)
      ∧ List.Perm (GetChirpsFromIdSorted s authorId sort) (GetChirpsFromId s authorId)) := by
  subst h
  have hne : ("" : String) ≠ "desc" := by decide
  constructor
  · constructor
    · rw [GetChirpsSorted, if_neg hne]
      exact List.sorted_insertionSort chirpIdLE (GetChirps s)
    · rw [GetChirpsSorted, if_neg hne]
      exact List.perm_insertionSort chirpIdLE (GetChirps s)
  · constructor
    · rw [GetChirpsFromIdSorted, if_neg hne]
      exact List.sorted_insertionSort chirpIdLE (GetChirpsFromId s authorId)
    · rw [GetChirpsFromIdSorted, if_neg hne]
      exact List.perm_insertionSort chirpIdLE (GetChirpsFromId s authorId)

/-- Witness for C3: the sorted listing of the one-chirp store with no
sort order requested is sorted and a permutation of the stored chirps. -/
theorem listChirps_sorted_ascending_witness :
    (List.Sorted chirpIdLE (GetChirpsSorted c4State "")
      ∧ List.Perm (GetChirpsSorted c4State "") (GetChirps c4State))
    ∧ (List.Sorted chirpIdLE (GetChirpsFromIdSorted c4State 7 "")
      ∧ List.Perm (GetChirpsFromIdSorted c4State 7 "")
          (GetChirpsFromId c4State 7)) :=
  listChirps_sorted_ascending c4State 7 "" rfl

/-! ### C10: `UpdateUser` stores the email verbatim, `GetUser` compares
normalized input against stored emails -/

/-- Store after `createUser("alice@x.com", "pw1")` on a fresh store. -/
def c10State1 : DBStructure :=
  (CreateUser idHash true initialDBStructure "alice@x.com" "pw1").2

/-- Store after additionally `createUser("bob@y.com", "pw2")`. -/
def c10State2 : DBStructure :=
  (CreateUser idHash true c10State1 "bob@y.com" "pw2").2

/-- Store after additionally `updateUser(2, "Alice@X.com ", "pw3")`. -/
def c10State3 : DBStructure :=
  (UpdateUser idHash true c10State2 2 "Alice@X.com " "pw3").2

/-- C10 counterexample: after updating user 2's email to the
non-normalized `"Alice@X.com "`, the lookup `GetUser "alice@x.com"` — an
input whose normalized form equals `normalizeEmail "Alice@X.com "` —
does not fail with not-found: it returns user 1, whose stored email
happens to equal that normalized form. -/
theorem UpdateUser_lookup_claim_counterexample :
    normalizeEmail "Alice@X.com " ≠ "Alice@X.com "
    ∧ normalizeEmail "alice@x.com" = normalizeEmail "Alice@X.com "
    ∧ (UpdateUser idHash true c10State2 2 "Alice@X.com " "pw3").1 = Except.ok ()
    ∧ GetUser c10State3 "alice@x.com"
        = Except.ok { email := "alice@x.com", password := "pw1", id := 1,
                      isChirpyRed := false } :=
  ⟨by decide, rfl, rfl, rfl⟩

/-- `findUserByEmail` misses when no stored email equals the key. -/
theorem findUserByEmail_eq_none (m : List (Int × User)) (em : String)
    (h : ∀ p ∈ m, (Prod.snd p).email ≠ em) :
    findUserByEmail m em = none := by
  induction m with
  | nil => rfl
  | cons q rest ih =>
    obtain ⟨k, u⟩ := q
    have hne : u.email ≠ em := h (k, u) (List.mem_cons_self _ _)
    rw [findUserByEmail, if_neg (Ne.symm hne)]
    exact ih (fun p hp => h p (List.mem_cons_of_mem _ hp))

/-- Entries of `mapInsert` on a duplicate-free map: the new entry, or an
old entry with a different key. -/
theorem mem_mapInsert_of_nodup {α β : Type} [DecidableEq α]
    (m : List (α × β)) (k : α) (v : β) (hnd : (m.map Prod.fst).Nodup)
    (p : α × β) (hp : p ∈ mapInsert m k v) :
    p = (k, v) ∨ (p ∈ m ∧ p.1 ≠ k) := by
  induction m with
  | nil =>
    left
    simpa [mapInsert] using hp
  | cons q rest ih =>
    obtain ⟨k1, v1⟩ := q
    have hnd1 : (rest.map Prod.fst).Nodup := (List.nodup_cons.mp hnd).2
    by_cases h : k1 = k
    · subst h
      have hk1 : k1 ∉ rest.map Prod.fst := (List.nodup_cons.mp hnd).1
      rw [mapInsert, if_pos rfl] at hp
      rcases List.mem_cons.mp hp with h1 | h1
      · left
        exact h1
      · right
        refine ⟨List.mem_cons_of_mem _ h1, ?_⟩
        intro hk
        exact hk1 (hk ▸ List.mem_map_of_mem Prod.fst h1)
    · rw [mapInsert, if_neg h] at hp
      rcases List.mem_cons.mp hp with h1 | h1
      · right
        subst h1
        exact ⟨List.mem_cons_self _ _, h⟩
      · rcases ih hnd1 h1 with h2 | h2
        · left
          exact h2
        · right
          exact ⟨List.mem_cons_of_mem _ h2.1, h2.2⟩

/-- C10 amended: after `UpdateUser` stored the non-normalized `newEmail`
verbatim, `GetUser e` fails with not-found for every `e` normalizing to
`normalizeEmail newEmail` — provided (as the counterexample forces) no
other user's stored email equals that normalized form.  The map has
duplicate-free keys, as Go maps always do. -/
theorem UpdateUser_breaks_normalized_lookup (hashPw : String → String)
    (s : DBStructure) (id : Int) (newEmail newPassword e : String) (u : User)
    (hfound : mapLookup s.users id = some u)
    (hkeys : (s.users.map Prod.fst).Nodup)
    (hnotnorm : normalizeEmail newEmail ≠ newEmail)
    (hnorm : normalizeEmail e = normalizeEmail newEmail)
    (hother : ∀ p ∈ s.users, Prod.fst p ≠ id → (Prod.snd p).email ≠ normalizeEmail e) :
    GetUser (UpdateUser hashPw true s id newEmail newPassword).2 e
      = Except.error DBError.userDoesNotExist := by
  obtain ⟨v, hv⟩ : ∃ v : User,
      v = { email := newEmail, password := hashPw newPassword, id := id,
            isChirpyRed := u.isChirpyRed } :=
    ⟨_, rfl⟩
  have hstep : (UpdateUser hashPw true s id newEmail newPassword).2
      = { s with users := mapInsert s.users id v } := by
    simp [UpdateUser, hfound, hv]
  rw [hstep]
  have hnone : findUserByEmail (mapInsert s.users id v) (normalizeEmail e) = none := by
    apply findUserByEmail_eq_none
    intro p hp
    rcases mem_mapInsert_of_nodup s.users id v hkeys p hp with h1 | h1
    · subst h1
      intro hcontra
      rw [hv] at hcontra
      dsimp only at hcontra
      exact hnotnorm (hnorm.symm.trans hcontra.symm)
    · exact hother p h1.1 h1.2
  rw [GetUser]
  simp [hnone]

/-- Witness for the amended C10: in the one-user store created from
`"alice@x.com"`, updating that user's email to `"Alice@X.com "` makes
`GetUser "alice@x.com"` fail with not-found. -/
theorem UpdateUser_breaks_normalized_lookup_witness :
    GetUser (UpdateUser idHash true c10State1 1 "Alice@X.com " "pw3").2 "alice@x.com"
      = Except.error DBError.userDoesNotExist :=
  UpdateUser_breaks_normalized_lookup idHash c10State1 1 "Alice@X.com " "pw3"
    "alice@x.com"
    { email := "alice@x.com", password := "pw1", id := 1, isChirpyRed := false }
    rfl (by decide) (by decide) (by decide) (by decide)

end Chirpy
